import Mathlib

/-!
# openstorage: KVDB backend registry, singleton holder and REST client transport

A shallow embedding of

* `vendor/github.com/portworx/kvdb/kvdb_mgr.go`: the package variables `instance` and
  `datastores` with the functions `Instance`, `SetInstance`, `New` and `Register`;
* `api/client/client.go`: `NewClient`, `unix2HTTP`, `newHTTPClient`, `getHttpClient`, the derived
  constructors and the verb builders.

Package variables become fields of an explicit state that every operation takes and returns.
The mutexes are not modelled: all statements are about sequential executions, in which a guarded
section runs atomically and a re-check under the lock sees what the first check saw.
-/

namespace Openstorage

/-! ## Go values shared by both packages -/

/-- A Go `error` value, by the way it was built: a package-level sentinel made with `errors.New`
(identified by the variable that holds it), the result of `fmt.Errorf` (format string and the
operands, not yet rendered), or any other error produced outside the two files. -/
inductive GoError where
  | sentinel (name : String)
  | errorf (format : String) (args : List String)
  | other (text : String)
  deriving DecidableEq, Repr

/-! ## Package kvdb -/

/-- The dynamic value behind a non-nil `Kvdb` interface value: the identity of the object
and what its `String()` method returns. -/
structure KvdbObj where
  addr : Nat
  str : String
  deriving DecidableEq, Repr

/-- A value of the interface type `Kvdb`; `none` is the nil interface value. -/
abbrev Kvdb := Option KvdbObj

/-- The Go type `map[string]string` of backend options, as its list of entries. -/
abbrev Options := List (String × String)

/-- The factory type `DatastoreInit`: `func(domain string, machines []string,
options map[string]string) (Kvdb, error)`. Both results are kept as returned, so a factory may
return any combination of nil and non-nil. A nil function value is outside the model. -/
abbrev DatastoreInit := String → List String → Options → Kvdb × Option GoError

/-- Modelled from the spec: `ErrNotSupported` is declared in kvdb.go, which is not part of the
sources at hand; it is the distinguished "not supported" error of the registry. -/
def ErrNotSupported : GoError := GoError.sentinel "ErrNotSupported"

/-- The package variables of kvdb_mgr.go: `instance` (nil when unset) and the map `datastores`. -/
structure KvdbState where
  instanceVar : Kvdb
  datastores : String → Option DatastoreInit

/-- The package state at program start: `instance` is nil and `datastores` is an empty map. -/
def KvdbState.init : KvdbState :=
  { instanceVar := none, datastores := fun _ => none }

/-- The map assignment `m[key] = value`. -/
def mapSet {V : Type} (m : String → Option V) (key : String) (value : V) : String → Option V :=
  fun k => if k = key then some value else m k

/-- `Instance` returns the package variable `instance`. -/
def Instance (s : KvdbState) : Kvdb :=
  s.instanceVar

/-- The error of `SetInstance`:
`fmt.Errorf("Kvdb instance is already set to %q", instance.String())`. -/
def alreadySetError (held : KvdbObj) : GoError :=
  GoError.errorf "Kvdb instance is already set to %q" [held.str]

/-- `SetInstance`: when `instance` is nil, and is still nil at the re-check under the lock,
it is assigned the argument and nil is returned; otherwise the error built from the held
instance is returned and nothing is written. -/
def SetInstance (s : KvdbState) (kvdb : Kvdb) : KvdbState × Option GoError :=
  match s.instanceVar with
  | none =>
    match s.instanceVar with
    | none => ({ s with instanceVar := kvdb }, none)
    | some held => (s, some (alreadySetError held))
  | some held => (s, some (alreadySetError held))

/-- One invocation of a registered factory: the key it was found under and the three
arguments it was called with. -/
structure FactoryCall where
  name : String
  domain : String
  machines : List String
  options : Options
  deriving DecidableEq, Repr

/-- `New`: looks `name` up in `datastores`; when present the stored factory is called with
`domain`, `machines`, `options` and its two results are returned; otherwise
`nil, ErrNotSupported`. The third component lists the factory invocations made by the call.
No package variable is written. -/
def New (s : KvdbState) (name domain : String) (machines : List String) (options : Options) :
    KvdbState × (Kvdb × Option GoError) × List FactoryCall :=
  match s.datastores name with
  | some dsInit =>
    let r := dsInit domain machines options
    (s, (r.1, r.2), [{ name := name, domain := domain, machines := machines, options := options }])
  | none => (s, (none, some ErrNotSupported), [])

/-- The error of `Register`:
`fmt.Errorf("Datastore provider %q is already registered", name)`. -/
def alreadyRegisteredError (name : String) : GoError :=
  GoError.errorf "Datastore provider %q is already registered" [name]

/-- `Register`: fails when `name` is a key of `datastores`, otherwise stores the factory. -/
def Register (s : KvdbState) (name : String) (dsInit : DatastoreInit) :
    KvdbState × Option GoError :=
  match s.datastores name with
  | some _ => (s, some (alreadyRegisteredError name))
  | none => ({ s with datastores := mapSet s.datastores name dsInit }, none)

/-- A call of one of the four exported functions of kvdb_mgr.go. -/
inductive Op where
  | SetInstance (kvdb : Kvdb)
  | Instance
  | Register (name : String) (dsInit : DatastoreInit)
  | New (name domain : String) (machines : List String) (options : Options)

/-- The package state after one call. -/
def step (s : KvdbState) : Op → KvdbState
  | Op.SetInstance kvdb => (SetInstance s kvdb).1
  | Op.Instance => s
  | Op.Register name dsInit => (Register s name dsInit).1
  | Op.New name domain machines options => (New s name domain machines options).1

/-- The package state after a finite sequence of calls, made one after the other. -/
def run (s : KvdbState) : List Op → KvdbState
  | [] => s
  | op :: ops => run (step s op) ops

/-- The errors returned by the sequential calls `SetInstance(k1)`, ..., `SetInstance(kn)`,
in call order. -/
def setInstanceAll (s : KvdbState) : List Kvdb → List (Option GoError)
  | [] => []
  | k :: ks => (SetInstance s k).2 :: setInstanceAll (SetInstance s k).1 ks

/-- The number of calls that returned a nil error. -/
def successes (errs : List (Option GoError)) : Nat :=
  (errs.filter fun e => e.isNone).length

/-- Whether an error is the duplicate-instance error of `SetInstance`. -/
def isDuplicateInstanceError : GoError → Bool
  | GoError.errorf format _ => format == "Kvdb instance is already set to %q"
  | _ => false

/-- Exactly one call returned success and every other call returned the duplicate-instance
error. -/
def oneSuccessOthersDuplicate (errs : List (Option GoError)) : Prop :=
  successes errs = 1 ∧ ∀ e ∈ errs, e = none ∨ ∃ g, e = some g ∧ isDuplicateInstanceError g = true

/-- A factory that returns a trivial in-memory store. -/
def memoryInit : DatastoreInit :=
  fun _ _ _ => (some { addr := 1, str := "memory" }, none)

/-! ## Package client -/

/-- The Go type `url.Userinfo`: user name and optional password of a URL. -/
structure Userinfo where
  username : String
  password : String
  passwordSet : Bool
  deriving DecidableEq, Repr

/-- The Go type `url.URL`, component by component; `User` is a pointer and may be nil. -/
structure URL where
  Scheme : String
  Opaque : String
  User : Option Userinfo
  Host : String
  Path : String
  RawPath : String
  RawQuery : String
  Fragment : String
  deriving DecidableEq, Repr

/-- The library function `url.Parse`, taken as a parameter: a deterministic function from the
host string to either a freshly allocated URL or an error. -/
abbrev UrlParse := String → Except GoError URL

/-- The Go type `time.Duration`, a count of nanoseconds. -/
abbrev Duration := Int

/-- The constant `time.Second`. -/
def Second : Duration := 1000000000

/-- The Go type `tls.Config`, kept abstract: only its identity matters here. -/
structure TLSConfig where
  ident : Nat
  deriving DecidableEq, Repr

/-- The arguments of one call `net.DialTimeout(network, address, timeout)`. -/
structure DialTimeoutCall where
  network : String
  address : String
  timeout : Duration
  deriving DecidableEq, Repr

/-- The two closures that `newHTTPClient` can install as `Transport.Dial`, as a tagged value
holding what the closure captured. -/
inductive DialStrategy where
  | unixDial (socketPath : String) (timeout : Duration)
  | netDial (timeout : Duration)
  deriving DecidableEq, Repr

/-- Calling the installed dial closure with `proto` and `addr`: `unixDial` calls
`net.DialTimeout("unix", socketPath, timeout)`, the default closure calls
`net.DialTimeout(proto, addr, timeout)`. -/
def DialStrategy.call : DialStrategy → String → String → DialTimeoutCall
  | DialStrategy.unixDial socketPath timeout, _, _ =>
    { network := "unix", address := socketPath, timeout := timeout }
  | DialStrategy.netDial timeout, proto, addr =>
    { network := proto, address := addr, timeout := timeout }

/-- The fields of `http.Transport` that client.go sets. -/
structure HttpTransport where
  TLSClientConfig : Option TLSConfig
  Dial : DialStrategy
  deriving DecidableEq, Repr

/-- An allocated `http.Client`: the address of the object (two pointers are identical exactly
when the addresses are) and its transport. -/
structure HttpClient where
  addr : Nat
  Transport : HttpTransport
  deriving DecidableEq, Repr

/-- The statement `if u.Path == "" { u.Path = "/" }`, which both `NewClient` and
`getHttpClient` run on the URL they parsed. The URL after the statement is returned. -/
def defaultPath (u : URL) : URL :=
  if u.Path = "" then { u with Path := "/" } else u

/-- `unix2HTTP` overwrites scheme, host and path of a URL whose scheme is `unix` and leaves
every other URL alone. The URL after the call is returned. -/
def unix2HTTP (u : URL) : URL :=
  if u.Scheme = "unix" then
    { u with Scheme := "http", Host := "unix.sock", Path := "" }
  else u

/-- `newHTTPClient`: allocates (at address `addr`) a client whose transport has the given TLS
configuration and, for scheme `unix`, a dial closure that captured `u.Path` before `unix2HTTP(u)`
is applied, otherwise the pass-through dial closure. The second component is `u` after the
call. -/
def newHTTPClient (addr : Nat) (u : URL) (tlsConfig : Option TLSConfig) (timeout : Duration) :
    HttpClient × URL :=
  if u.Scheme = "unix" then
    let socketPath := u.Path
    ({ addr := addr,
       Transport := { TLSClientConfig := tlsConfig,
                      Dial := DialStrategy.unixDial socketPath timeout } },
     unix2HTTP u)
  else
    ({ addr := addr,
       Transport := { TLSClientConfig := tlsConfig, Dial := DialStrategy.netDial timeout } },
     u)

/-- The package variable `httpCache` of client.go (which only ever stores non-nil clients),
together with the number of `http.Client` objects allocated so far, which is also the address
of the next one, and the lines written to standard output. -/
structure ClientState where
  httpCache : String → Option HttpClient
  allocated : Nat
  stdout : List String

/-- The package state at program start: an empty cache. -/
def ClientState.init : ClientState :=
  { httpCache := fun _ => none, allocated := 0, stdout := [] }

/-- `getHttpClient`: a cached client is returned as is (first check, then the same check under
the lock). On a miss the host is parsed; on a parse error a line is printed and nil is
returned; otherwise an empty path becomes `/`, a client is built with no TLS configuration and
a timeout of `10*time.Second`, stored under `host` and returned. -/
def getHttpClient (parse : UrlParse) (s : ClientState) (host : String) :
    Option HttpClient × ClientState :=
  match s.httpCache host with
  | some c => (some c, s)
  | none =>
    match s.httpCache host with
    | some c => (some c, s)
    | none =>
      match parse host with
      | Except.error _ =>
        (none, { s with stdout := s.stdout ++ ["Failed to parse into url " ++ host] })
      | Except.ok u =>
        let u1 := defaultPath u
        let c := (newHTTPClient s.allocated u1 none (10 * Second)).1
        (some c, { s with httpCache := mapSet s.httpCache host c, allocated := s.allocated + 1 })

/-- The struct `Client`: base URL, API version and the (possibly nil) HTTP client. -/
structure Client where
  base : URL
  version : String
  httpClient : Option HttpClient
  deriving DecidableEq, Repr

/-- `NewClient`: parses the host, returns `nil, err` on a parse error; otherwise defaults an
empty path to `/`, applies `unix2HTTP` and builds the client with `getHttpClient(host)`. -/
def NewClient (parse : UrlParse) (s : ClientState) (host version : String) :
    (Option Client × Option GoError) × ClientState :=
  match parse host with
  | Except.error err => ((none, some err), s)
  | Except.ok baseURL =>
    let baseURL1 := defaultPath baseURL
    let baseURL2 := unix2HTTP baseURL1
    let r := getHttpClient parse s host
    ((some { base := baseURL2, version := version, httpClient := r.1 }, none), r.2)

/-- The constants of package `config` that client.go reads, taken as parameters. -/
structure Config where
  ClusterAPIBase : String
  DriverAPIBase : String
  Version : String

/-- `NewClusterClient`: the socket host is `"unix://" + config.ClusterAPIBase + "osd.sock"` and
an empty version is replaced by `config.Version`. -/
def NewClusterClient (cfg : Config) (parse : UrlParse) (s : ClientState) (version : String) :
    (Option Client × Option GoError) × ClientState :=
  let sockPath := "unix://" ++ cfg.ClusterAPIBase ++ "osd.sock"
  let version1 := if version = "" then cfg.Version else version
  NewClient parse s sockPath version1

/-- `NewDriverClient`: the socket host is
`"unix://" + config.DriverAPIBase + driverName + ".sock"` and an empty version is replaced by
`config.Version`. -/
def NewDriverClient (cfg : Config) (parse : UrlParse) (s : ClientState)
    (driverName version : String) : (Option Client × Option GoError) × ClientState :=
  let sockPath := "unix://" ++ cfg.DriverAPIBase ++ driverName ++ ".sock"
  let version1 := if version = "" then cfg.Version else version
  NewClient parse s sockPath version1

/-- The package state after the sequential calls `getHttpClient(h1)`, ..., `getHttpClient(hn)`.
`NewClient` changes the state only through its call of `getHttpClient`. -/
def getHttpClientAll (parse : UrlParse) (s : ClientState) : List String → ClientState
  | [] => s
  | host :: hosts => getHttpClientAll parse (getHttpClient parse s host).2 hosts

/-- Every cached client was built by `getHttpClient` for the key it is stored under: the key
parses, and the client is the one `newHTTPClient` builds, at an address already handed out,
for the parsed URL with no TLS configuration and a timeout of `10*time.Second`. -/
def CacheBuilt (parse : UrlParse) (s : ClientState) : Prop :=
  ∀ host c, s.httpCache host = some c →
    ∃ u, parse host = Except.ok u ∧ c.addr < s.allocated ∧
      c = (newHTTPClient c.addr (defaultPath u) none (10 * Second)).1

/-- Modelled from the spec: the type `Request` and its constructor `NewRequest` are declared in
request.go, which is not part of the sources at hand; a request is pre-bound to the HTTP client,
the base URL, the HTTP verb and the API version it was created with. -/
structure Request where
  client : Option HttpClient
  base : URL
  verb : String
  version : String
  deriving DecidableEq, Repr

/-- Modelled from the spec: `NewRequest(client, base, verb, version)` of request.go. -/
def NewRequest (client : Option HttpClient) (base : URL) (verb version : String) : Request :=
  { client := client, base := base, verb := verb, version := version }

/-- `Client.Get`: returns `NewRequest(c.httpClient, c.base, "GET", c.version)`. The second
component is the receiver after the call; the method assigns to none of its fields. -/
def Client.Get (c : Client) : Request × Client :=
  (NewRequest c.httpClient c.base "GET" c.version, c)

/-- `Client.Post`: returns `NewRequest(c.httpClient, c.base, "POST", c.version)`. The second
component is the receiver after the call; the method assigns to none of its fields. -/
def Client.Post (c : Client) : Request × Client :=
  (NewRequest c.httpClient c.base "POST" c.version, c)

/-- `Client.Put`: returns `NewRequest(c.httpClient, c.base, "PUT", c.version)`. The second
component is the receiver after the call; the method assigns to none of its fields. -/
def Client.Put (c : Client) : Request × Client :=
  (NewRequest c.httpClient c.base "PUT" c.version, c)

/-- `Client.Delete`: returns `NewRequest(c.httpClient, c.base, "DELETE", c.version)`. The second
component is the receiver after the call; the method assigns to none of its fields. -/
def Client.Delete (c : Client) : Request × Client :=
  (NewRequest c.httpClient c.base "DELETE" c.version, c)

/-- A URL with the given scheme, host and path and every other component empty. -/
def URL.ofParts (scheme host path : String) : URL :=
  { Scheme := scheme, Opaque := "", User := none, Host := host, Path := path,
    RawPath := "", RawQuery := "", Fragment := "" }

/-- A stand-in for `url.Parse` at a few concrete hosts, on which it returns what the library
returns: the URLs listed, and a missing-scheme error for `:foo` and `://bar`. Every other
string is rejected. It only serves to evaluate the definitions above at these hosts. -/
def exampleParse : UrlParse := fun host =>
  if host = "unix:///var/run/osd/osd.sock" then
    Except.ok (URL.ofParts "unix" "" "/var/run/osd/osd.sock")
  else if host = "http://localhost:9001" then
    Except.ok (URL.ofParts "http" "localhost:9001" "")
  else if host = "http://localhost:9001/v1" then
    Except.ok (URL.ofParts "http" "localhost:9001" "/v1")
  else if host = "http://a" then
    Except.ok (URL.ofParts "http" "a" "")
  else if host = "http://a/" then
    Except.ok (URL.ofParts "http" "a" "/")
  else if host = "unix:///var/lib/osd/driver/pxd.sock" then
    Except.ok (URL.ofParts "unix" "" "/var/lib/osd/driver/pxd.sock")
  else if host = ":foo" then
    Except.error (GoError.other "parse :foo: missing protocol scheme")
  else if host = "://bar" then
    Except.error (GoError.other "parse ://bar: missing protocol scheme")
  else
    Except.error (GoError.other ("parse " ++ host))

/-- Example values of the `config` constants, each base ending in the path separator. -/
def exampleConfig : Config :=
  { ClusterAPIBase := "/var/lib/osd/cluster/", DriverAPIBase := "/var/lib/osd/driver/",
    Version := "v1" }

/-- A stand-in for `strconv.Quote` on strings that need no escaping: the string between two
double quotes (character 34). -/
def exampleQuote (text : String) : String :=
  String.singleton (Char.ofNat 34) ++ text ++ String.singleton (Char.ofNat 34)

/-- Whether the host string parses as a URL. -/
def parses (parse : UrlParse) (host : String) : Bool :=
  match parse host with
  | Except.ok _ => true
  | Except.error _ => false

/-- Two cached clients stored under different keys are different objects. -/
def CacheDistinct (s : ClientState) : Prop :=
  ∀ h1 h2 c1 c2, s.httpCache h1 = some c1 → s.httpCache h2 = some c2 →
    c1.addr = c2.addr → h1 = h2

/-- Two package states with the same cache and the same allocation count; they may differ in
what was printed. -/
def sameCache (s t : ClientState) : Prop :=
  s.httpCache = t.httpCache ∧ s.allocated = t.allocated

/-- The cache has an entry exactly for the hosts of `called` that parse, and one client was
allocated for each of them. -/
def CacheCounts (parse : UrlParse) (s : ClientState) (called : List String) : Prop :=
  (∀ host, (s.httpCache host).isSome = true ↔ host ∈ called ∧ parses parse host = true) ∧
  s.allocated = ((called.filter fun host => parses parse host).toFinset).card

/-- The text produced by `fmt.Sprintf` for a format whose only verbs are `%q` and whose
operands are strings, one per verb, as in the two `fmt.Errorf` calls of kvdb_mgr.go: every
`%q` is replaced by the quoted next operand, every other character is copied. `quote` is the
library function `strconv.Quote`, taken as a parameter. A verb without operand renders as
`%!q(MISSING)`; surplus operands are not rendered. -/
def sprintfQ (quote : String → String) : List Char → List String → List Char
  | [], _ => []
  | '%' :: 'q' :: rest, a :: args => (quote a).toList ++ sprintfQ quote rest args
  | '%' :: 'q' :: rest, [] => "%!q(MISSING)".toList ++ sprintfQ quote rest []
  | c :: rest, args => c :: sprintfQ quote rest args

/-- The text of an error (its `Error()` method) where the two files determine it: the rendered
format of a `fmt.Errorf` error and the text of an outside error. The message of a sentinel is
declared with the sentinel. -/
def GoError.text (quote : String → String) : GoError → Option String
  | GoError.sentinel _ => none
  | GoError.errorf format args => some (String.mk (sprintfQ quote format.toList args))
  | GoError.other text => some text

/-! ## Registry: `Register` and `New` -/

theorem mapSet_same {V : Type} (m : String → Option V) (key : String) (value : V) :
    mapSet m key value key = some value := by
  simp [mapSet]

theorem mapSet_other {V : Type} (m : String → Option V) (key : String) (value : V)
    (k : String) (h : k ≠ key) : mapSet m key value k = m k := by
  simp [mapSet, h]

theorem Register_absent (s : KvdbState) (name : String) (f : DatastoreInit)
    (h : s.datastores name = none) :
    Register s name f = ({ s with datastores := mapSet s.datastores name f }, none) := by
  simp [Register, h]

theorem Register_present (s : KvdbState) (name : String) (f g : DatastoreInit)
    (h : s.datastores name = some g) :
    Register s name f = (s, some (alreadyRegisteredError name)) := by
  simp [Register, h]

theorem Register_ok_absent (s : KvdbState) (name : String) (f : DatastoreInit)
    (h : (Register s name f).2 = none) : s.datastores name = none := by
  cases hd : s.datastores name with
  | none => rfl
  | some g => rw [Register_present s name f g hd] at h; cases h

theorem New_absent (s : KvdbState) (name domain : String) (machines : List String)
    (options : Options) (h : s.datastores name = none) :
    New s name domain machines options = (s, (none, some ErrNotSupported), []) := by
  simp [New, h]

theorem New_present (s : KvdbState) (name domain : String) (machines : List String)
    (options : Options) (f : DatastoreInit) (h : s.datastores name = some f) :
    New s name domain machines options =
      (s, f domain machines options,
        [{ name := name, domain := domain, machines := machines, options := options }]) := by
  simp [New, h]

/-- C1: if `Register(name, f1)` succeeds, a following `Register(name, f2)` returns the
already-registered error, leaves the package state exactly as it was, `name` still maps to
`f1`, and `New(name, ...)` returns what `f1` returns. -/
theorem Register_twice_keeps_first (s : KvdbState) (name : String) (f1 f2 : DatastoreInit)
    (h : (Register s name f1).2 = none) :
    (Register (Register s name f1).1 name f2).2 = some (alreadyRegisteredError name) ∧
    (Register (Register s name f1).1 name f2).1 = (Register s name f1).1 ∧
    (Register (Register s name f1).1 name f2).1.datastores name = some f1 ∧
    ∀ domain machines options,
      (New (Register (Register s name f1).1 name f2).1 name domain machines options).2 =
        (f1 domain machines options,
          [{ name := name, domain := domain, machines := machines, options := options }]) := by
  have habs := Register_ok_absent s name f1 h
  have hmap : (Register s name f1).1.datastores name = some f1 := by
    rw [Register_absent s name f1 habs]; exact mapSet_same _ _ _
  have hsnd := Register_present (Register s name f1).1 name f2 f1 hmap
  refine ⟨by rw [hsnd], by rw [hsnd], by rw [hsnd]; exact hmap, ?_⟩
  intro domain machines options
  rw [hsnd, New_present _ name domain machines options f1 hmap]

/-- C1 at a concrete input: on the empty registry, "memory" is registered with the in-memory
factory and then again with a factory that always fails. -/
theorem Register_twice_keeps_first_witness :
    (Register KvdbState.init "memory" memoryInit).2 = none ∧
    (Register (Register KvdbState.init "memory" memoryInit).1 "memory"
        (fun _ _ _ => (none, some (GoError.other "down")))).2 =
      some (alreadyRegisteredError "memory") ∧
    (New (Register (Register KvdbState.init "memory" memoryInit).1 "memory"
        (fun _ _ _ => (none, some (GoError.other "down")))).1 "memory" "" [] []).2 =
      ((some { addr := 1, str := "memory" }, none),
        [{ name := "memory", domain := "", machines := [], options := [] }]) :=
  ⟨rfl,
   (Register_twice_keeps_first KvdbState.init "memory" memoryInit
      (fun _ _ _ => (none, some (GoError.other "down"))) rfl).1,
   (Register_twice_keeps_first KvdbState.init "memory" memoryInit
      (fun _ _ _ => (none, some (GoError.other "down"))) rfl).2.2.2 "" [] []⟩

/-- C2: when `name` is absent, `Register(name, f)` returns no error; afterwards `New(name, ...)`
returns exactly what `f` returns on the same arguments, and for every other name `New` returns
(and invokes) what it did before the registration, so a name absent before and different from
`name` still fails with `ErrNotSupported`. -/
theorem Register_then_New (s : KvdbState) (name : String) (f : DatastoreInit)
    (h : s.datastores name = none) :
    (Register s name f).2 = none ∧
    (∀ domain machines options,
      (New (Register s name f).1 name domain machines options).2.1 = f domain machines options) ∧
    (∀ n, n ≠ name → ∀ domain machines options,
      (New (Register s name f).1 n domain machines options).2 =
        (New s n domain machines options).2) ∧
    (∀ n, n ≠ name → s.datastores n = none → ∀ domain machines options,
      (New (Register s name f).1 n domain machines options).2.1 =
        (none, some ErrNotSupported)) := by
  have hreg := Register_absent s name f h
  refine ⟨by rw [hreg], ?_, ?_, ?_⟩
  · intro domain machines options
    rw [hreg, New_present _ name domain machines options f (mapSet_same _ _ _)]
  · intro n hn domain machines options
    rw [hreg]
    have hk : mapSet s.datastores name f n = s.datastores n := mapSet_other _ _ _ n hn
    cases hd : s.datastores n with
    | none =>
      rw [New_absent _ n domain machines options (by simpa [hd] using hk),
        New_absent s n domain machines options hd]
    | some g =>
      rw [New_present _ n domain machines options g (by simpa [hd] using hk),
        New_present s n domain machines options g hd]
  · intro n hn hd domain machines options
    rw [hreg]
    have hk : mapSet s.datastores name f n = s.datastores n := mapSet_other _ _ _ n hn
    rw [New_absent _ n domain machines options (by simpa [hd] using hk)]

/-- C2 at the scenario of the specification: "memory" is registered on the empty registry; then
`New("memory", "", [], {})` succeeds and `New("bogus", ...)` fails with `ErrNotSupported`. -/
theorem Register_then_New_witness :
    KvdbState.init.datastores "memory" = none ∧
    (Register KvdbState.init "memory" memoryInit).2 = none ∧
    (New (Register KvdbState.init "memory" memoryInit).1 "memory" "" [] []).2.1 =
      (some { addr := 1, str := "memory" }, none) ∧
    (New (Register KvdbState.init "memory" memoryInit).1 "bogus" "" [] []).2.1 =
      (none, some ErrNotSupported) :=
  ⟨rfl,
   (Register_then_New KvdbState.init "memory" memoryInit rfl).1,
   (Register_then_New KvdbState.init "memory" memoryInit rfl).2.1 "" [] [],
   (Register_then_New KvdbState.init "memory" memoryInit rfl).2.2.2 "bogus" (by decide) rfl
     "" [] []⟩

/-- C3: for a name that is not registered, `New` returns a nil instance together with exactly
`ErrNotSupported`, whatever the other arguments, invokes no factory and leaves the package
state as it was. -/
theorem New_unregistered (s : KvdbState) (name domain : String) (machines : List String)
    (options : Options) (h : s.datastores name = none) :
    New s name domain machines options = (s, (none, some ErrNotSupported), []) :=
  New_absent s name domain machines options h

/-- C3 at a concrete input: "bogus" is looked up while only "memory" is registered. -/
theorem New_unregistered_witness :
    (Register KvdbState.init "memory" memoryInit).1.datastores "bogus" = none ∧
    New (Register KvdbState.init "memory" memoryInit).1 "bogus" "pwx" ["127.0.0.1:4001"]
        [("ttl", "5")] =
      ((Register KvdbState.init "memory" memoryInit).1, (none, some ErrNotSupported), []) :=
  ⟨by simp [Register, KvdbState.init, mapSet],
   New_unregistered _ "bogus" "pwx" ["127.0.0.1:4001"] [("ttl", "5")]
     (by simp [Register, KvdbState.init, mapSet])⟩

/-- C4: when `name` maps to the factory `f`, `New` returns the pair that `f` returns on exactly
the three arguments given to `New` (an error of `f` included, unchanged), invokes `f` once, and
changes neither the registry nor the instance holder. -/
theorem New_registered (s : KvdbState) (name domain : String) (machines : List String)
    (options : Options) (f : DatastoreInit) (h : s.datastores name = some f) :
    (New s name domain machines options).2.1 = f domain machines options ∧
    (New s name domain machines options).2.2 =
      [{ name := name, domain := domain, machines := machines, options := options }] ∧
    (New s name domain machines options).1 = s ∧
    (New s name domain machines options).1.datastores = s.datastores ∧
    Instance (New s name domain machines options).1 = Instance s := by
  rw [New_present s name domain machines options f h]
  exact ⟨rfl, rfl, rfl, rfl, rfl⟩

/-- C4 at a concrete input: the registered factory fails with its own error, which `New`
returns as it is. -/
theorem New_registered_witness :
    (Register KvdbState.init "etcd"
        (fun domain _ _ => (none, some (GoError.other ("no route to " ++ domain))))).1.datastores
      "etcd" = some (fun domain _ _ => (none, some (GoError.other ("no route to " ++ domain)))) ∧
    (New (Register KvdbState.init "etcd"
        (fun domain _ _ => (none, some (GoError.other ("no route to " ++ domain))))).1
      "etcd" "pwx" [] []).2.1 = (none, some (GoError.other "no route to pwx")) :=
  ⟨by simp [Register, KvdbState.init, mapSet],
   (New_registered _ "etcd" "pwx" [] []
      (fun domain _ _ => (none, some (GoError.other ("no route to " ++ domain))))
      (by simp [Register, KvdbState.init, mapSet])).1⟩

/-! ## Singleton holder: `SetInstance` and `Instance` -/

theorem SetInstance_unset (s : KvdbState) (kvdb : Kvdb) (h : s.instanceVar = none) :
    SetInstance s kvdb = ({ s with instanceVar := kvdb }, none) := by
  simp [SetInstance, h]

theorem SetInstance_set (s : KvdbState) (kvdb : Kvdb) (held : KvdbObj)
    (h : s.instanceVar = some held) :
    SetInstance s kvdb = (s, some (alreadySetError held)) := by
  simp [SetInstance, h]

theorem step_keeps_set (s : KvdbState) (held : KvdbObj) (h : s.instanceVar = some held)
    (op : Op) : (step s op).instanceVar = some held := by
  cases op with
  | SetInstance kvdb => simp [step, SetInstance_set s kvdb held h, h]
  | Instance => simpa [step] using h
  | Register name dsInit =>
    cases hd : s.datastores name with
    | none => simp [step, Register_absent s name dsInit hd, h]
    | some g => simp [step, Register_present s name dsInit g hd, h]
  | New name domain machines options =>
    cases hd : s.datastores name with
    | none => simp [step, New_absent s name domain machines options hd, h]
    | some g => simp [step, New_present s name domain machines options g hd, h]

theorem run_keeps_set (ops : List Op) (s : KvdbState) (held : KvdbObj)
    (h : s.instanceVar = some held) : (run s ops).instanceVar = some held := by
  induction ops generalizing s with
  | nil => simpa [run] using h
  | cons op ops ih => exact ih (step s op) (step_keeps_set s held h op)

theorem setInstanceAll_set (ks : List Kvdb) (s : KvdbState) (held : KvdbObj)
    (h : s.instanceVar = some held) :
    setInstanceAll s ks = List.replicate ks.length (some (alreadySetError held)) := by
  induction ks with
  | nil => rfl
  | cons k ks ih => simp [setInstanceAll, SetInstance_set s k held h, ih, List.replicate_succ]

theorem successes_replicate_some (n : Nat) (g : GoError) :
    successes (List.replicate n (some g)) = 0 := by
  induction n with
  | zero => rfl
  | succ n ih => simp [successes, List.replicate_succ]

theorem successes_none_cons (errs : List (Option GoError)) :
    successes (none :: errs) = successes errs + 1 := by
  simp [successes]

theorem SetInstance_success_iff_unset_aux (s : KvdbState) (k : Kvdb) :
    (SetInstance s k).2 = none ↔ s.instanceVar = none := by
  cases hi : s.instanceVar with
  | none => simp [SetInstance_unset s k hi]
  | some held => simp [SetInstance_set s k held hi]

/-- C5: `SetInstance(k)` returns success exactly when no instance is held before the call, and
when it returns an error the package state, the held instance in particular, is what it was
before the call. -/
theorem SetInstance_success_iff_unset (s : KvdbState) (k : Kvdb) :
    ((SetInstance s k).2 = none ↔ Instance s = none) ∧
    ((SetInstance s k).2 ≠ none →
      (SetInstance s k).1 = s ∧ Instance (SetInstance s k).1 = Instance s) := by
  cases hi : s.instanceVar with
  | none => simp [SetInstance_unset s k hi, Instance, hi]
  | some held => simp [SetInstance_set s k held hi, Instance, hi]

/-- C5 at a concrete input: a second instance is offered while a first one is held. -/
theorem SetInstance_success_iff_unset_witness :
    (SetInstance (SetInstance KvdbState.init (some { addr := 1, str := "etcd" })).1
        (some { addr := 2, str := "consul" })).2 ≠ none ∧
    Instance (SetInstance (SetInstance KvdbState.init (some { addr := 1, str := "etcd" })).1
        (some { addr := 2, str := "consul" })).1 = some { addr := 1, str := "etcd" } :=
  ⟨by decide,
   ((SetInstance_success_iff_unset
      (SetInstance KvdbState.init (some { addr := 1, str := "etcd" })).1
      (some { addr := 2, str := "consul" })).2 (by decide)).2⟩

/-- C6 as stated fails: from the initial holder the two sequential calls `SetInstance(nil)` and
`SetInstance(k)` both return success. -/
theorem SetInstance_nil_then_set_both_succeed :
    setInstanceAll KvdbState.init [none, some { addr := 1, str := "etcd" }] = [none, none] ∧
    ¬ oneSuccessOthersDuplicate
        (setInstanceAll KvdbState.init [none, some { addr := 1, str := "etcd" }]) := by
  refine ⟨rfl, ?_⟩
  intro h
  have h1 := h.1
  simp [setInstanceAll, SetInstance, KvdbState.init, successes] at h1

/-- C6, amended: from an unset holder, a sequence of at least two sequential `SetInstance`
calls has exactly one success and otherwise duplicate-instance errors if and only if the first
argument is not nil; it is then the first call that succeeds, and every later call returns the
error built from the first argument. -/
theorem SetInstance_sequence (s : KvdbState) (ks : List Kvdb) (hs : Instance s = none)
    (hn : 2 ≤ ks.length) :
    (oneSuccessOthersDuplicate (setInstanceAll s ks) ↔ ∃ k1 rest, ks = some k1 :: rest) ∧
    (∀ k1 rest, ks = some k1 :: rest →
      setInstanceAll s ks = none :: List.replicate rest.length (some (alreadySetError k1))) := by
  have hs1 : s.instanceVar = none := hs
  have key : ∀ (k1 : KvdbObj) (rest : List Kvdb),
      setInstanceAll s (some k1 :: rest) =
        none :: List.replicate rest.length (some (alreadySetError k1)) := by
    intro k1 rest
    simp [setInstanceAll, SetInstance_unset s (some k1) hs1,
      setInstanceAll_set rest { s with instanceVar := some k1 } k1 rfl]
  refine ⟨?_, ?_⟩
  · match ks, hn with
    | none :: k2 :: rest, _ =>
      have hres : setInstanceAll s (none :: k2 :: rest) =
          none :: none :: setInstanceAll { s with instanceVar := k2 } rest := by
        simp [setInstanceAll, SetInstance_unset s none hs1,
          SetInstance_unset { s with instanceVar := none } k2 rfl]
      constructor
      · intro h
        have h1 := h.1
        rw [hres, successes_none_cons, successes_none_cons] at h1
        omega
      · rintro ⟨k1, rest1, h⟩
        cases h
    | some k1 :: k2 :: rest, _ =>
      constructor
      · intro _
        exact ⟨k1, k2 :: rest, rfl⟩
      · intro _
        rw [key k1 (k2 :: rest)]
        refine ⟨by rw [successes_none_cons, successes_replicate_some], ?_⟩
        intro e he
        rcases List.mem_cons.1 he with h0 | h0
        · exact Or.inl h0
        · exact Or.inr ⟨alreadySetError k1, (List.mem_replicate.1 h0).2, rfl⟩
  · intro k1 rest hk
    rw [hk]
    exact key k1 rest

/-- C6, amended, at a concrete input: three calls, the first with a non-nil instance, the
second with nil, the third with another instance. -/
theorem SetInstance_sequence_witness :
    Instance KvdbState.init = none ∧
    2 ≤ [some { addr := 1, str := "etcd" }, none,
          some ({ addr := 2, str := "consul" } : KvdbObj)].length ∧
    setInstanceAll KvdbState.init
        [some { addr := 1, str := "etcd" }, none, some { addr := 2, str := "consul" }] =
      [none, some (alreadySetError { addr := 1, str := "etcd" }),
        some (alreadySetError { addr := 1, str := "etcd" })] :=
  ⟨rfl, by decide,
   (SetInstance_sequence KvdbState.init
      [some { addr := 1, str := "etcd" }, none, some { addr := 2, str := "consul" }]
      rfl (by decide)).2 { addr := 1, str := "etcd" }
      [none, some { addr := 2, str := "consul" }] rfl⟩

/-- C7 as stated fails: `SetInstance(nil)` returns success on the initial holder, and a
following `SetInstance(k)` installs `k`, so `Instance()` no longer returns the argument of the
first successful call. -/
theorem SetInstance_nil_success_not_kept :
    (SetInstance KvdbState.init none).2 = none ∧
    Instance (SetInstance KvdbState.init none).1 = none ∧
    Instance (run (SetInstance KvdbState.init none).1
        [Op.SetInstance (some { addr := 1, str := "etcd" })]) =
      some { addr := 1, str := "etcd" } ∧
    Instance (run (SetInstance KvdbState.init none).1
        [Op.SetInstance (some { addr := 1, str := "etcd" })]) ≠ none := by
  refine ⟨rfl, rfl, rfl, ?_⟩
  simp [run, step, SetInstance, KvdbState.init, Instance]

/-- C7, amended: `Instance()` returns nil in the initial state; once `SetInstance(k)` with a
non-nil `k` has returned success, `Instance()` returns `k` after every further finite sequence
of `SetInstance`, `Instance`, `Register` and `New` calls (the empty one included); a held
instance is never replaced or cleared by any sequence of calls, and a single call changes the
holder only when it was unset. -/
theorem Instance_stable_once_set :
    Instance KvdbState.init = none ∧
    (∀ (s : KvdbState) (k : KvdbObj), (SetInstance s (some k)).2 = none →
      ∀ ops, Instance (run (SetInstance s (some k)).1 ops) = some k) ∧
    (∀ (s : KvdbState) (held : KvdbObj), Instance s = some held →
      ∀ ops, Instance (run s ops) = some held) ∧
    (∀ (s : KvdbState) (op : Op), Instance (step s op) ≠ Instance s → Instance s = none) := by
  refine ⟨rfl, ?_, ?_, ?_⟩
  · intro s k h ops
    have hu : s.instanceVar = none := ((SetInstance_success_iff_unset_aux s (some k)).1 h)
    apply run_keeps_set
    rw [SetInstance_unset s (some k) hu]
  · intro s held h ops
    exact run_keeps_set ops s held h
  · intro s op hne
    cases hi : s.instanceVar with
    | none => exact hi
    | some held =>
      exact absurd ((step_keeps_set s held hi op).trans hi.symm) hne

/-- C7, amended, at a concrete input: after a successful `SetInstance`, a second
`SetInstance`, a `Register`, a `New` and an `Instance` call leave the held instance alone. -/
theorem Instance_stable_once_set_witness :
    (SetInstance KvdbState.init (some { addr := 1, str := "etcd" })).2 = none ∧
    Instance (run (SetInstance KvdbState.init (some { addr := 1, str := "etcd" })).1
        [Op.SetInstance (some { addr := 2, str := "consul" }), Op.SetInstance none,
         Op.Register "memory" memoryInit, Op.New "memory" "" [] [], Op.Instance]) =
      some { addr := 1, str := "etcd" } :=
  ⟨rfl,
   Instance_stable_once_set.2.1 KvdbState.init { addr := 1, str := "etcd" } rfl
     [Op.SetInstance (some { addr := 2, str := "consul" }), Op.SetInstance none,
      Op.Register "memory" memoryInit, Op.New "memory" "" [] [], Op.Instance]⟩

/-! ## Client: URL rewriting in `NewClient` -/

theorem getHttpClient_hit (parse : UrlParse) (s : ClientState) (host : String) (c : HttpClient)
    (h : s.httpCache host = some c) : getHttpClient parse s host = (some c, s) := by
  simp [getHttpClient, h]

theorem getHttpClient_miss_ok (parse : UrlParse) (s : ClientState) (host : String) (u : URL)
    (h : s.httpCache host = none) (hp : parse host = Except.ok u) :
    getHttpClient parse s host =
      (some (newHTTPClient s.allocated (defaultPath u) none (10 * Second)).1,
       { s with
         httpCache := mapSet s.httpCache host
           (newHTTPClient s.allocated (defaultPath u) none (10 * Second)).1,
         allocated := s.allocated + 1 }) := by
  simp [getHttpClient, h, hp]

theorem getHttpClient_miss_error (parse : UrlParse) (s : ClientState) (host : String)
    (err : GoError) (h : s.httpCache host = none) (hp : parse host = Except.error err) :
    getHttpClient parse s host =
      (none, { s with stdout := s.stdout ++ ["Failed to parse into url " ++ host] }) := by
  simp [getHttpClient, h, hp]

theorem NewClient_parsed (parse : UrlParse) (s : ClientState) (host version : String) (u : URL)
    (hp : parse host = Except.ok u) :
    NewClient parse s host version =
      ((some { base := unix2HTTP (defaultPath u), version := version,
               httpClient := (getHttpClient parse s host).1 }, none),
       (getHttpClient parse s host).2) := by
  simp [NewClient, hp]

theorem defaultPath_Scheme (u : URL) : (defaultPath u).Scheme = u.Scheme := by
  unfold defaultPath
  split <;> rfl

/-- C8: for a host that parses to a URL with scheme `unix`, `NewClient` succeeds and the base
URL of the client has scheme `http`, host `unix.sock` and the empty path (not `/`), the other
components being those of the parsed URL; no `unix` scheme remains in the base URL, which is
what the verb builders hand to `NewRequest`. -/
theorem NewClient_unix (parse : UrlParse) (s : ClientState) (host version : String) (u : URL)
    (hp : parse host = Except.ok u) (hs : u.Scheme = "unix") :
    ∃ c, (NewClient parse s host version).1 = (some c, none) ∧
      c.base = { u with Scheme := "http", Host := "unix.sock", Path := "" } ∧
      c.base.Scheme = "http" ∧ c.base.Host = "unix.sock" ∧ c.base.Path = "" ∧
      c.base.Path ≠ "/" ∧ c.base.Scheme ≠ "unix" ∧ c.Get.1.base = c.base := by
  refine ⟨_, by rw [NewClient_parsed parse s host version u hp], ?_⟩
  have hb : unix2HTTP (defaultPath u) =
      { u with Scheme := "http", Host := "unix.sock", Path := "" } := by
    unfold unix2HTTP
    rw [if_pos ((defaultPath_Scheme u).trans hs)]
    unfold defaultPath
    split <;> rfl
  dsimp only
  rw [hb]
  exact ⟨rfl, rfl, rfl, rfl, by simp, by simp, rfl⟩

/-- C8 at the host of the specification, `unix:///var/run/osd/osd.sock`. -/
theorem NewClient_unix_witness :
    exampleParse "unix:///var/run/osd/osd.sock" =
      Except.ok (URL.ofParts "unix" "" "/var/run/osd/osd.sock") ∧
    ∃ c, (NewClient exampleParse ClientState.init "unix:///var/run/osd/osd.sock" "v1").1 =
        (some c, none) ∧
      c.base = URL.ofParts "http" "unix.sock" "" :=
  ⟨by simp [exampleParse],
   (NewClient_unix exampleParse ClientState.init "unix:///var/run/osd/osd.sock" "v1"
      (URL.ofParts "unix" "" "/var/run/osd/osd.sock") (by simp [exampleParse]) rfl).imp
      fun _ h => ⟨h.1, h.2.1⟩⟩

/-- C9: for a host that parses to a URL whose scheme is not `unix`, `NewClient` succeeds and
the base URL of the client is the parsed URL with only the path possibly changed: `/` when the
parsed path is empty, the parsed path otherwise. -/
theorem NewClient_not_unix (parse : UrlParse) (s : ClientState) (host version : String)
    (u : URL) (hp : parse host = Except.ok u) (hs : u.Scheme ≠ "unix") :
    ∃ c, (NewClient parse s host version).1 = (some c, none) ∧
      c.base = { u with Path := if u.Path = "" then "/" else u.Path } ∧
      (u.Path = "" → c.base = { u with Path := "/" }) ∧
      (u.Path ≠ "" → c.base = u) ∧
      c.base.Scheme = u.Scheme ∧ c.base.Opaque = u.Opaque ∧ c.base.User = u.User ∧
      c.base.Host = u.Host ∧ c.base.RawPath = u.RawPath ∧ c.base.RawQuery = u.RawQuery ∧
      c.base.Fragment = u.Fragment := by
  refine ⟨_, by rw [NewClient_parsed parse s host version u hp], ?_⟩
  have hb : unix2HTTP (defaultPath u) = defaultPath u := by
    unfold unix2HTTP
    rw [if_neg (by rw [defaultPath_Scheme]; exact hs)]
  dsimp only
  rw [hb]
  by_cases hpath : u.Path = ""
  · have hd : defaultPath u = { u with Path := "/" } := by simp [defaultPath, hpath]
    rw [hd]
    simp [hpath]
  · have hd : defaultPath u = u := by simp [defaultPath, hpath]
    rw [hd]
    simp [hpath]

/-- C9 at two concrete hosts: `http://localhost:9001` gets the path `/`, and
`http://localhost:9001/v1` keeps its path. -/
theorem NewClient_not_unix_witness :
    (exampleParse "http://localhost:9001" = Except.ok (URL.ofParts "http" "localhost:9001" "") ∧
      (URL.ofParts "http" "localhost:9001" "").Scheme ≠ "unix") ∧
    ∃ c, (NewClient exampleParse ClientState.init "http://localhost:9001" "v1").1 =
        (some c, none) ∧
      c.base = URL.ofParts "http" "localhost:9001" "/" :=
  ⟨⟨by simp [exampleParse], by decide⟩,
   (NewClient_not_unix exampleParse ClientState.init "http://localhost:9001" "v1"
      (URL.ofParts "http" "localhost:9001" "") (by simp [exampleParse]) (by decide)).imp
      fun _ h => ⟨h.1, h.2.2.1 rfl⟩⟩

/-! ## Client: the dial strategy of `newHTTPClient` -/

theorem newHTTPClient_unix (addr : Nat) (u : URL) (tlsConfig : Option TLSConfig)
    (timeout : Duration) (hs : u.Scheme = "unix") :
    newHTTPClient addr u tlsConfig timeout =
      ({ addr := addr,
         Transport := { TLSClientConfig := tlsConfig,
                        Dial := DialStrategy.unixDial u.Path timeout } },
       unix2HTTP u) := by
  simp [newHTTPClient, hs]

theorem newHTTPClient_not_unix (addr : Nat) (u : URL) (tlsConfig : Option TLSConfig)
    (timeout : Duration) (hs : u.Scheme ≠ "unix") :
    newHTTPClient addr u tlsConfig timeout =
      ({ addr := addr,
         Transport := { TLSClientConfig := tlsConfig, Dial := DialStrategy.netDial timeout } },
       u) := by
  simp [newHTTPClient, hs]

theorem newHTTPClient_addr (addr : Nat) (u : URL) (tlsConfig : Option TLSConfig)
    (timeout : Duration) : (newHTTPClient addr u tlsConfig timeout).1.addr = addr := by
  by_cases hs : u.Scheme = "unix"
  · rw [newHTTPClient_unix addr u tlsConfig timeout hs]
  · rw [newHTTPClient_not_unix addr u tlsConfig timeout hs]

theorem newHTTPClient_call_timeout (addr : Nat) (u : URL) (tlsConfig : Option TLSConfig)
    (timeout : Duration) (proto address : String) :
    ((newHTTPClient addr u tlsConfig timeout).1.Transport.Dial.call proto address).timeout =
      timeout := by
  by_cases hs : u.Scheme = "unix"
  · rw [newHTTPClient_unix addr u tlsConfig timeout hs]; rfl
  · rw [newHTTPClient_not_unix addr u tlsConfig timeout hs]; rfl

theorem CacheBuilt_init (parse : UrlParse) : CacheBuilt parse ClientState.init := by
  intro host c h
  simp [ClientState.init] at h

theorem CacheBuilt_getHttpClient (parse : UrlParse) (s : ClientState) (host : String)
    (h : CacheBuilt parse s) : CacheBuilt parse (getHttpClient parse s host).2 := by
  cases hc : s.httpCache host with
  | some c => rw [getHttpClient_hit parse s host c hc]; exact h
  | none =>
    cases hp : parse host with
    | error err =>
      rw [getHttpClient_miss_error parse s host err hc hp]
      intro host1 c1 h1
      exact h host1 c1 h1
    | ok u =>
      rw [getHttpClient_miss_ok parse s host u hc hp]
      intro host1 c1 h1
      by_cases hk : host1 = host
      · subst hk
        have hc1 : c1 = (newHTTPClient s.allocated (defaultPath u) none (10 * Second)).1 := by
          simpa [mapSet] using h1.symm
        refine ⟨u, hp, ?_, ?_⟩
        · rw [hc1, newHTTPClient_addr]; exact Nat.lt_succ_self _
        · rw [hc1, newHTTPClient_addr]
      · have h2 : s.httpCache host1 = some c1 := by simpa [mapSet, hk] using h1
        obtain ⟨u1, hp1, hlt, hb⟩ := h host1 c1 h2
        exact ⟨u1, hp1, Nat.lt_succ_of_lt hlt, hb⟩

theorem CacheBuilt_getHttpClientAll (parse : UrlParse) (hosts : List String) (s : ClientState)
    (h : CacheBuilt parse s) : CacheBuilt parse (getHttpClientAll parse s hosts) := by
  induction hosts generalizing s with
  | nil => exact h
  | cons host hosts ih => exact ih _ (CacheBuilt_getHttpClient parse s host h)

theorem getHttpClient_built (parse : UrlParse) (s : ClientState) (host : String)
    (c : HttpClient) (h : CacheBuilt parse s) (hr : (getHttpClient parse s host).1 = some c) :
    ∃ u, parse host = Except.ok u ∧
      c = (newHTTPClient c.addr (defaultPath u) none (10 * Second)).1 := by
  cases hc : s.httpCache host with
  | some c1 =>
    rw [getHttpClient_hit parse s host c1 hc] at hr
    obtain ⟨u, hp, _, hb⟩ := h host c1 hc
    have : c1 = c := by simpa using hr
    subst this
    exact ⟨u, hp, hb⟩
  | none =>
    cases hp : parse host with
    | error err =>
      rw [getHttpClient_miss_error parse s host err hc hp] at hr
      cases hr
    | ok u =>
      rw [getHttpClient_miss_ok parse s host u hc hp] at hr
      have : (newHTTPClient s.allocated (defaultPath u) none (10 * Second)).1 = c := by
        simpa using hr
      subst this
      exact ⟨u, rfl, by rw [newHTTPClient_addr]⟩

theorem getHttpClient_parsed_some (parse : UrlParse) (s : ClientState) (host : String)
    (u : URL) (hp : parse host = Except.ok u) :
    ∃ c, (getHttpClient parse s host).1 = some c := by
  cases hc : s.httpCache host with
  | some c1 => exact ⟨c1, by rw [getHttpClient_hit parse s host c1 hc]⟩
  | none => exact ⟨_, by rw [getHttpClient_miss_ok parse s host u hc hp]⟩

/-- C10: for a URL with scheme `unix`, the dialer installed by `newHTTPClient` ignores the
protocol and address it is called with and dials network `unix` at the path the URL had before
`unix2HTTP` cleared it, with the given timeout; for any other scheme it dials the protocol and
address it is given, with the given timeout. Every client that `getHttpClient` returns in a
state reached from the empty cache dials with a timeout of 10 seconds, and for the host
`unix:///var/run/osd/osd.sock` (which the library parses to scheme `unix` and path
`/var/run/osd/osd.sock`) a client is returned whose dialer dials that path. -/
theorem dial_strategy (parse : UrlParse) :
    (∀ addr u tlsConfig timeout proto address, u.Scheme = "unix" →
      (newHTTPClient addr u tlsConfig timeout).1.Transport.Dial.call proto address =
        { network := "unix", address := u.Path, timeout := timeout } ∧
      (newHTTPClient addr u tlsConfig timeout).2.Path = "") ∧
    (∀ addr u tlsConfig timeout proto address, u.Scheme ≠ "unix" →
      (newHTTPClient addr u tlsConfig timeout).1.Transport.Dial.call proto address =
        { network := proto, address := address, timeout := timeout }) ∧
    (∀ hosts host c proto address,
      (getHttpClient parse (getHttpClientAll parse ClientState.init hosts) host).1 = some c →
      (c.Transport.Dial.call proto address).timeout = 10 * Second) ∧
    10 * Second = 10000000000 ∧
    (∀ hosts u proto address,
      parse "unix:///var/run/osd/osd.sock" = Except.ok u → u.Scheme = "unix" →
      u.Path = "/var/run/osd/osd.sock" →
      ∃ c, (getHttpClient parse (getHttpClientAll parse ClientState.init hosts)
          "unix:///var/run/osd/osd.sock").1 = some c ∧
        c.Transport.Dial.call proto address =
          { network := "unix", address := "/var/run/osd/osd.sock",
            timeout := 10 * Second }) := by
  refine ⟨?_, ?_, ?_, by decide, ?_⟩
  · intro addr u tlsConfig timeout proto address hs
    rw [newHTTPClient_unix addr u tlsConfig timeout hs]
    exact ⟨rfl, by simp [unix2HTTP, hs]⟩
  · intro addr u tlsConfig timeout proto address hs
    rw [newHTTPClient_not_unix addr u tlsConfig timeout hs]
    rfl
  · intro hosts host c proto address hr
    obtain ⟨u, _, hb⟩ := getHttpClient_built parse _ host c
      (CacheBuilt_getHttpClientAll parse hosts _ (CacheBuilt_init parse)) hr
    rw [hb]
    exact newHTTPClient_call_timeout _ _ _ _ _ _
  · intro hosts u proto address hp hs hpath
    obtain ⟨c, hr⟩ := getHttpClient_parsed_some parse
      (getHttpClientAll parse ClientState.init hosts) _ u hp
    refine ⟨c, hr, ?_⟩
    obtain ⟨u1, hp1, hb⟩ := getHttpClient_built parse _ _ c
      (CacheBuilt_getHttpClientAll parse hosts _ (CacheBuilt_init parse)) hr
    have hu : u1 = u := by
      rw [hp] at hp1
      cases hp1
      rfl
    subst hu
    have hd : defaultPath u1 = u1 := by simp [defaultPath, hpath]
    rw [hd, newHTTPClient_unix _ u1 none _ hs] at hb
    rw [hb]
    simp [DialStrategy.call, hpath]

/-- C10 at the host of the specification, asked for after another host was cached: the dialer
is called with `tcp` and `unix.sock:80` and dials the socket path instead. -/
theorem dial_strategy_witness :
    exampleParse "unix:///var/run/osd/osd.sock" =
      Except.ok (URL.ofParts "unix" "" "/var/run/osd/osd.sock") ∧
    ∃ c, (getHttpClient exampleParse
          (getHttpClientAll exampleParse ClientState.init ["http://localhost:9001"])
          "unix:///var/run/osd/osd.sock").1 = some c ∧
      c.Transport.Dial.call "tcp" "unix.sock:80" =
        { network := "unix", address := "/var/run/osd/osd.sock", timeout := 10 * Second } :=
  ⟨by simp [exampleParse],
   (dial_strategy exampleParse).2.2.2.2 ["http://localhost:9001"]
     (URL.ofParts "unix" "" "/var/run/osd/osd.sock") "tcp" "unix.sock:80"
     (by simp [exampleParse]) rfl rfl⟩

/-! ## Client: the cache of `getHttpClient` -/

theorem getHttpClient_cached_after (parse : UrlParse) (s : ClientState) (host : String)
    (c : HttpClient) (hr : (getHttpClient parse s host).1 = some c) :
    (getHttpClient parse s host).2.httpCache host = some c := by
  cases hc : s.httpCache host with
  | some c1 =>
    rw [getHttpClient_hit parse s host c1 hc] at hr ⊢
    have : c1 = c := by simpa using hr
    rw [← this]; exact hc
  | none =>
    cases hp : parse host with
    | error err =>
      rw [getHttpClient_miss_error parse s host err hc hp] at hr
      cases hr
    | ok u =>
      rw [getHttpClient_miss_ok parse s host u hc hp] at hr ⊢
      have : (newHTTPClient s.allocated (defaultPath u) none (10 * Second)).1 = c := by
        simpa using hr
      rw [← this]
      exact mapSet_same _ _ _

theorem getHttpClient_keeps (parse : UrlParse) (s : ClientState) (host other : String)
    (c : HttpClient) (h : s.httpCache host = some c) :
    (getHttpClient parse s other).2.httpCache host = some c := by
  cases hc : s.httpCache other with
  | some c1 => rw [getHttpClient_hit parse s other c1 hc]; exact h
  | none =>
    cases hp : parse other with
    | error err => rw [getHttpClient_miss_error parse s other err hc hp]; exact h
    | ok u =>
      rw [getHttpClient_miss_ok parse s other u hc hp]
      have hne : host ≠ other := by
        intro he
        rw [he, hc] at h
        cases h
      exact (mapSet_other _ _ _ host hne).trans h

theorem getHttpClientAll_keeps (parse : UrlParse) (hosts : List String) (s : ClientState)
    (host : String) (c : HttpClient) (h : s.httpCache host = some c) :
    (getHttpClientAll parse s hosts).httpCache host = some c := by
  induction hosts generalizing s with
  | nil => exact h
  | cons other hosts ih => exact ih _ (getHttpClient_keeps parse s host other c h)

theorem parses_ok (parse : UrlParse) (host : String) (u : URL)
    (hp : parse host = Except.ok u) : parses parse host = true := by
  simp [parses, hp]

theorem parses_error (parse : UrlParse) (host : String) (err : GoError)
    (hp : parse host = Except.error err) : parses parse host = false := by
  simp [parses, hp]

theorem CacheCounts_getHttpClient (parse : UrlParse) (s : ClientState) (called : List String)
    (host : String) (h : CacheCounts parse s called) :
    CacheCounts parse (getHttpClient parse s host).2 (called ++ [host]) := by
  obtain ⟨hkeys, hcount⟩ := h
  cases hc : s.httpCache host with
  | some c1 =>
    rw [getHttpClient_hit parse s host c1 hc]
    have hin : host ∈ called ∧ parses parse host = true := (hkeys host).1 (by simp [hc])
    refine ⟨?_, ?_⟩
    · intro h1
      rw [hkeys h1]
      constructor
      · rintro ⟨hm, hok⟩
        exact ⟨List.mem_append_left _ hm, hok⟩
      · rintro ⟨hm, hok⟩
        rcases List.mem_append.1 hm with hm1 | hm1
        · exact ⟨hm1, hok⟩
        · have : h1 = host := by simpa using hm1
          rw [this]; exact hin
    · rw [hcount, List.filter_append]
      have hmem : host ∈ (called.filter fun host => parses parse host).toFinset := by
        simp [List.mem_filter, hin.1, hin.2]
      have hf : List.filter (fun host => parses parse host) [host] = [host] := by
        simp [hin.2]
      have hu : (called.filter fun host => parses parse host).toFinset ∪ [host].toFinset =
          (called.filter fun host => parses parse host).toFinset := by
        apply Finset.union_eq_left.2
        intro x hx
        have hx1 : x = host := by simpa using hx
        rw [hx1]
        exact hmem
      rw [hf, List.toFinset_append, hu]
  | none =>
    have hnot : ¬ (host ∈ called ∧ parses parse host = true) := by
      intro hin
      have := (hkeys host).2 hin
      simp [hc] at this
    cases hp : parse host with
    | error err =>
      rw [getHttpClient_miss_error parse s host err hc hp]
      have hno : parses parse host = false := parses_error parse host err hp
      refine ⟨?_, ?_⟩
      · intro h1
        show (s.httpCache h1).isSome = true ↔ _
        rw [hkeys h1]
        constructor
        · rintro ⟨hm, hok⟩
          exact ⟨List.mem_append_left _ hm, hok⟩
        · rintro ⟨hm, hok⟩
          rcases List.mem_append.1 hm with hm1 | hm1
          · exact ⟨hm1, hok⟩
          · have : h1 = host := by simpa using hm1
            rw [this, hno] at hok
            cases hok
      · show s.allocated = _
        rw [hcount, List.filter_append]
        simp [List.filter_cons, hno]
    | ok u =>
      rw [getHttpClient_miss_ok parse s host u hc hp]
      have hyes : parses parse host = true := parses_ok parse host u hp
      refine ⟨?_, ?_⟩
      · intro h1
        show (mapSet s.httpCache host _ h1).isSome = true ↔ _
        by_cases he : h1 = host
        · subst he
          simp [mapSet, hyes]
        · rw [mapSet_other _ _ _ h1 he, hkeys h1]
          constructor
          · rintro ⟨hm, hok⟩
            exact ⟨List.mem_append_left _ hm, hok⟩
          · rintro ⟨hm, hok⟩
            rcases List.mem_append.1 hm with hm1 | hm1
            · exact ⟨hm1, hok⟩
            · exact absurd (by simpa using hm1) he
      · show s.allocated + 1 = _
        have hnm : host ∉ (called.filter fun host => parses parse host).toFinset := by
          intro hm
          apply hnot
          have := List.mem_filter.1 (List.mem_toFinset.1 hm)
          exact ⟨this.1, hyes⟩
        rw [hcount, List.filter_append]
        simp only [List.filter_cons, hyes, if_true, List.filter_nil, List.toFinset_append,
          List.toFinset_cons, List.toFinset_nil, insert_emptyc_eq]
        rw [Finset.union_comm, ← Finset.insert_eq, Finset.card_insert_of_not_mem hnm]

theorem CacheCounts_getHttpClientAll (parse : UrlParse) (hosts : List String)
    (s : ClientState) (called : List String) (h : CacheCounts parse s called) :
    CacheCounts parse (getHttpClientAll parse s hosts) (called ++ hosts) := by
  induction hosts generalizing s called with
  | nil => simpa [getHttpClientAll] using h
  | cons host hosts ih =>
    have := ih _ _ (CacheCounts_getHttpClient parse s called host h)
    simpa [getHttpClientAll, List.append_assoc] using this

theorem CacheCounts_init (parse : UrlParse) : CacheCounts parse ClientState.init [] := by
  refine ⟨?_, ?_⟩
  · intro host
    simp [ClientState.init]
  · simp [ClientState.init]

/-- C11: in every package state, if `getHttpClient(h)` returns a client `c`, then every later
call `getHttpClient(h)`, whatever calls were made in between, returns the identical client
`c` and leaves the whole package state (cache and allocation count included) as it found it,
so it constructs nothing. Over any sequence of calls from the empty cache the number of clients
constructed is the number of distinct host strings of the sequence that parse. -/
theorem getHttpClient_memoizes (parse : UrlParse) :
    (∀ (s : ClientState) (h : String) (c : HttpClient) (between : List String),
      (getHttpClient parse s h).1 = some c →
      getHttpClient parse (getHttpClientAll parse (getHttpClient parse s h).2 between) h =
        (some c, getHttpClientAll parse (getHttpClient parse s h).2 between)) ∧
    (∀ hosts : List String,
      (getHttpClientAll parse ClientState.init hosts).allocated =
        ((hosts.filter fun host => parses parse host).toFinset).card) := by
  refine ⟨?_, ?_⟩
  · intro s h c between hr
    exact getHttpClient_hit parse _ h c
      (getHttpClientAll_keeps parse between _ h c (getHttpClient_cached_after parse s h c hr))
  · intro hosts
    have := (CacheCounts_getHttpClientAll parse hosts _ [] (CacheCounts_init parse)).2
    simpa using this

/-- C11 at a concrete input: `http://a` is asked for, then `http://a/`, then `http://a`
again; the third call returns the client of the first and the state of the second. -/
theorem getHttpClient_memoizes_witness :
    (getHttpClient exampleParse ClientState.init "http://a").1 =
      some { addr := 0,
             Transport := { TLSClientConfig := none,
                            Dial := DialStrategy.netDial (10 * Second) } } ∧
    getHttpClient exampleParse
        (getHttpClientAll exampleParse (getHttpClient exampleParse ClientState.init "http://a").2
          ["http://a/"]) "http://a" =
      (some { addr := 0,
              Transport := { TLSClientConfig := none,
                             Dial := DialStrategy.netDial (10 * Second) } },
       getHttpClientAll exampleParse (getHttpClient exampleParse ClientState.init "http://a").2
          ["http://a/"]) :=
  ⟨by simp [getHttpClient, ClientState.init, exampleParse, newHTTPClient, defaultPath,
      URL.ofParts],
   (getHttpClient_memoizes exampleParse).1 ClientState.init "http://a" _ ["http://a/"]
     (by simp [getHttpClient, ClientState.init, exampleParse, newHTTPClient, defaultPath,
       URL.ofParts])⟩

theorem CacheDistinct_init : CacheDistinct ClientState.init := by
  intro h1 h2 c1 c2 hc1
  simp [ClientState.init] at hc1

theorem CacheDistinct_getHttpClient (parse : UrlParse) (s : ClientState) (host : String)
    (hb : CacheBuilt parse s) (hd : CacheDistinct s) :
    CacheDistinct (getHttpClient parse s host).2 := by
  cases hc : s.httpCache host with
  | some c => rw [getHttpClient_hit parse s host c hc]; exact hd
  | none =>
    cases hp : parse host with
    | error err =>
      rw [getHttpClient_miss_error parse s host err hc hp]
      intro h1 h2 c1 c2 hc1 hc2
      exact hd h1 h2 c1 c2 hc1 hc2
    | ok u =>
      rw [getHttpClient_miss_ok parse s host u hc hp]
      intro h1 h2 c1 c2 hc1 hc2 haddr
      have hnew : ∀ (h : String) (c : HttpClient),
          mapSet s.httpCache host
            (newHTTPClient s.allocated (defaultPath u) none (10 * Second)).1 h = some c →
          (h = host ∧ c.addr = s.allocated) ∨ (h ≠ host ∧ s.httpCache h = some c) := by
        intro h c hm
        by_cases he : h = host
        · left
          refine ⟨he, ?_⟩
          rw [he, mapSet_same] at hm
          have : (newHTTPClient s.allocated (defaultPath u) none (10 * Second)).1 = c := by
            simpa using hm
          rw [← this, newHTTPClient_addr]
        · right
          exact ⟨he, by rw [mapSet_other _ _ _ h he] at hm; exact hm⟩
      rcases hnew h1 c1 hc1 with ⟨e1, a1⟩ | ⟨_, o1⟩
      · rcases hnew h2 c2 hc2 with ⟨e2, _⟩ | ⟨_, o2⟩
        · rw [e1, e2]
        · obtain ⟨_, _, hlt, _⟩ := hb h2 c2 o2
          omega
      · rcases hnew h2 c2 hc2 with ⟨_, a2⟩ | ⟨_, o2⟩
        · obtain ⟨_, _, hlt, _⟩ := hb h1 c1 o1
          omega
        · exact hd h1 h2 c1 c2 o1 o2 haddr

theorem CacheDistinct_getHttpClientAll (parse : UrlParse) (hosts : List String)
    (s : ClientState) (hb : CacheBuilt parse s) (hd : CacheDistinct s) :
    CacheDistinct (getHttpClientAll parse s hosts) := by
  induction hosts generalizing s with
  | nil => exact hd
  | cons host hosts ih =>
    exact ih _ (CacheBuilt_getHttpClient parse s host hb)
      (CacheDistinct_getHttpClient parse s host hb hd)

/-- C12 as stated fails: the two different host strings `:foo` and `://bar` do not parse, and
`getHttpClient` returns nil, no client, for both. -/
theorem getHttpClient_two_unparsable_hosts :
    ":foo" ≠ "://bar" ∧
    (getHttpClient exampleParse ClientState.init ":foo").1 = none ∧
    (getHttpClient exampleParse (getHttpClient exampleParse ClientState.init ":foo").2
        "://bar").1 = none ∧
    (getHttpClient exampleParse ClientState.init ":foo").1 =
      (getHttpClient exampleParse (getHttpClient exampleParse ClientState.init ":foo").2
        "://bar").1 := by
  refine ⟨by decide, ?_, ?_, ?_⟩ <;>
    simp [getHttpClient, ClientState.init, exampleParse]

/-- C12, amended: the cache is keyed by the unparsed host string. In every state reached from
the empty cache, for two different host strings that both parse, `getHttpClient` returns two
clients that are different objects, whatever calls are made between the two, and both stay
cached under their own key; whether the two hosts parse to the same URL plays no role. For a
host string that does not parse, `getHttpClient` returns nil and no entry is stored under
it. -/
theorem getHttpClient_distinct_hosts (parse : UrlParse) :
    (∀ (before between : List String) (h1 h2 : String) (u1 u2 : URL), h1 ≠ h2 →
      parse h1 = Except.ok u1 → parse h2 = Except.ok u2 →
      ∃ c1 c2,
        (getHttpClient parse (getHttpClientAll parse ClientState.init before) h1).1 = some c1 ∧
        (getHttpClient parse
          (getHttpClientAll parse
            (getHttpClient parse (getHttpClientAll parse ClientState.init before) h1).2
            between)
          h2).1 = some c2 ∧
        c1.addr ≠ c2.addr ∧ c1 ≠ c2 ∧
        (getHttpClient parse
          (getHttpClientAll parse
            (getHttpClient parse (getHttpClientAll parse ClientState.init before) h1).2
            between)
          h2).2.httpCache h1 = some c1 ∧
        (getHttpClient parse
          (getHttpClientAll parse
            (getHttpClient parse (getHttpClientAll parse ClientState.init before) h1).2
            between)
          h2).2.httpCache h2 = some c2) ∧
    (∀ (before : List String) (host : String) (err : GoError),
      parse host = Except.error err →
      (getHttpClient parse (getHttpClientAll parse ClientState.init before) host).1 = none ∧
      (getHttpClient parse (getHttpClientAll parse ClientState.init before) host).2.httpCache
        host = none) := by
  refine ⟨?_, ?_⟩
  · intro before between h1 h2 u1 u2 hne hp1 hp2
    have hb0 := CacheBuilt_getHttpClientAll parse before _ (CacheBuilt_init parse)
    have hd0 := CacheDistinct_getHttpClientAll parse before _ (CacheBuilt_init parse)
      CacheDistinct_init
    obtain ⟨c1, hr1⟩ := getHttpClient_parsed_some parse
      (getHttpClientAll parse ClientState.init before) h1 u1 hp1
    have hb1 := CacheBuilt_getHttpClient parse _ h1 hb0
    have hd1 := CacheDistinct_getHttpClient parse _ h1 hb0 hd0
    have hb2 := CacheBuilt_getHttpClientAll parse between _ hb1
    have hd2 := CacheDistinct_getHttpClientAll parse between _ hb1 hd1
    obtain ⟨c2, hr2⟩ := getHttpClient_parsed_some parse
      (getHttpClientAll parse
        (getHttpClient parse (getHttpClientAll parse ClientState.init before) h1).2 between)
      h2 u2 hp2
    have hd3 := CacheDistinct_getHttpClient parse _ h2 hb2 hd2
    have hk1 := getHttpClient_keeps parse _ h1 h2 c1
      (getHttpClientAll_keeps parse between _ h1 c1
        (getHttpClient_cached_after parse _ h1 c1 hr1))
    have hk2 := getHttpClient_cached_after parse _ h2 c2 hr2
    have haddr : c1.addr ≠ c2.addr := fun he => hne (hd3 h1 h2 c1 c2 hk1 hk2 he)
    exact ⟨c1, c2, hr1, hr2, haddr, fun he => haddr (by rw [he]), hk1, hk2⟩
  · intro before host err hp
    have hb := CacheBuilt_getHttpClientAll parse before _ (CacheBuilt_init parse)
    cases hc : (getHttpClientAll parse ClientState.init before).httpCache host with
    | some c =>
      obtain ⟨u, hpu, _, _⟩ := hb host c hc
      rw [hp] at hpu
      cases hpu
    | none =>
      rw [getHttpClient_miss_error parse _ host err hc hp]
      exact ⟨rfl, hc⟩

/-- C12, amended, at the hosts `http://a` and `http://a/`, which both stand for the URL with
path `/`: the two clients are two objects; and at the host `:foo`, asked for after them, which
does not parse. -/
theorem getHttpClient_distinct_hosts_witness :
    ("http://a" ≠ "http://a/" ∧
      exampleParse "http://a" = Except.ok (URL.ofParts "http" "a" "") ∧
      exampleParse "http://a/" = Except.ok (URL.ofParts "http" "a" "/") ∧
      exampleParse ":foo" =
        Except.error (GoError.other "parse :foo: missing protocol scheme")) ∧
    (∃ c1 c2,
      (getHttpClient exampleParse (getHttpClientAll exampleParse ClientState.init [])
        "http://a").1 = some c1 ∧
      (getHttpClient exampleParse
        (getHttpClientAll exampleParse
          (getHttpClient exampleParse (getHttpClientAll exampleParse ClientState.init [])
            "http://a").2 [])
        "http://a/").1 = some c2 ∧
      c1 ≠ c2) ∧
    (getHttpClient exampleParse
      (getHttpClientAll exampleParse ClientState.init ["http://a", "http://a/"]) ":foo").1 =
      none :=
  ⟨⟨by decide, by simp [exampleParse], by simp [exampleParse], by simp [exampleParse]⟩,
   ((getHttpClient_distinct_hosts exampleParse).1 [] [] "http://a" "http://a/"
      (URL.ofParts "http" "a" "") (URL.ofParts "http" "a" "/") (by decide)
      (by simp [exampleParse]) (by simp [exampleParse])).imp
      fun _ h => h.imp fun _ h2 => ⟨h2.1, h2.2.1, h2.2.2.2.1⟩,
   ((getHttpClient_distinct_hosts exampleParse).2 ["http://a", "http://a/"] ":foo"
      (GoError.other "parse :foo: missing protocol scheme") (by simp [exampleParse])).1⟩

theorem sameCache_getHttpClient (parse : UrlParse) (s t : ClientState) (host : String)
    (h : sameCache s t) :
    (getHttpClient parse s host).1 = (getHttpClient parse t host).1 ∧
    sameCache (getHttpClient parse s host).2 (getHttpClient parse t host).2 := by
  obtain ⟨hcache, halloc⟩ := h
  cases hc : s.httpCache host with
  | some c =>
    have hct : t.httpCache host = some c := by rw [← hcache]; exact hc
    rw [getHttpClient_hit parse s host c hc, getHttpClient_hit parse t host c hct]
    exact ⟨rfl, hcache, halloc⟩
  | none =>
    have hct : t.httpCache host = none := by rw [← hcache]; exact hc
    cases hp : parse host with
    | error err =>
      rw [getHttpClient_miss_error parse s host err hc hp,
        getHttpClient_miss_error parse t host err hct hp]
      exact ⟨rfl, hcache, halloc⟩
    | ok u =>
      rw [getHttpClient_miss_ok parse s host u hc hp,
        getHttpClient_miss_ok parse t host u hct hp]
      refine ⟨by rw [halloc], ?_, ?_⟩
      · show mapSet s.httpCache host _ = mapSet t.httpCache host _
        rw [hcache, halloc]
      · show s.allocated + 1 = t.allocated + 1
        rw [halloc]

theorem sameCache_getHttpClientAll (parse : UrlParse) (hosts : List String)
    (s t : ClientState) (h : sameCache s t) :
    sameCache (getHttpClientAll parse s hosts) (getHttpClientAll parse t hosts) := by
  induction hosts generalizing s t with
  | nil => exact h
  | cons host hosts ih => exact ih _ _ (sameCache_getHttpClient parse s t host h).2

/-- C13: for a host that is not cached and fails to parse, `getHttpClient` returns nil and
leaves cache and allocation count exactly as they were (only a line is printed), so no entry
is stored under the host, and every later `getHttpClient` call, after any further calls,
returns what it would have returned and leaves the cache it would have left had the failed
call not been made. -/
theorem getHttpClient_parse_failure (parse : UrlParse) (s : ClientState) (host : String)
    (err : GoError) (hc : s.httpCache host = none) (hp : parse host = Except.error err) :
    (getHttpClient parse s host).1 = none ∧
    (getHttpClient parse s host).2.httpCache = s.httpCache ∧
    (getHttpClient parse s host).2.allocated = s.allocated ∧
    (getHttpClient parse s host).2.httpCache host = none ∧
    (getHttpClient parse s host).2.stdout = s.stdout ++ ["Failed to parse into url " ++ host] ∧
    ∀ (later : List String) (h : String),
      (getHttpClient parse (getHttpClientAll parse (getHttpClient parse s host).2 later) h).1 =
        (getHttpClient parse (getHttpClientAll parse s later) h).1 ∧
      (getHttpClient parse
          (getHttpClientAll parse (getHttpClient parse s host).2 later) h).2.httpCache =
        (getHttpClient parse (getHttpClientAll parse s later) h).2.httpCache := by
  rw [getHttpClient_miss_error parse s host err hc hp]
  refine ⟨rfl, rfl, rfl, hc, rfl, ?_⟩
  intro later h
  have hsame : sameCache
      { s with stdout := s.stdout ++ ["Failed to parse into url " ++ host] } s := ⟨rfl, rfl⟩
  have := sameCache_getHttpClient parse _ _ h (sameCache_getHttpClientAll parse later _ _ hsame)
  exact ⟨this.1, this.2.1⟩

/-- C13 at a concrete input: `:foo` is asked for on the empty cache, which changes nothing for
the host `http://a` asked for next. -/
theorem getHttpClient_parse_failure_witness :
    (ClientState.init.httpCache ":foo" = none ∧
      exampleParse ":foo" =
        Except.error (GoError.other "parse :foo: missing protocol scheme")) ∧
    (getHttpClient exampleParse ClientState.init ":foo").1 = none ∧
    (getHttpClient exampleParse
        (getHttpClientAll exampleParse (getHttpClient exampleParse ClientState.init ":foo").2 [])
        "http://a").1 =
      (getHttpClient exampleParse (getHttpClientAll exampleParse ClientState.init [])
        "http://a").1 :=
  ⟨⟨rfl, by simp [exampleParse]⟩,
   (getHttpClient_parse_failure exampleParse ClientState.init ":foo"
      (GoError.other "parse :foo: missing protocol scheme") rfl (by simp [exampleParse])).1,
   ((getHttpClient_parse_failure exampleParse ClientState.init ":foo"
      (GoError.other "parse :foo: missing protocol scheme") rfl
      (by simp [exampleParse])).2.2.2.2.2 [] "http://a").1⟩

/-! ## Client: `NewClient` and the derived constructors -/

theorem NewClient_parse_error (parse : UrlParse) (s : ClientState) (host version : String)
    (err : GoError) (hp : parse host = Except.error err) :
    NewClient parse s host version = ((none, some err), s) := by
  simp [NewClient, hp]

/-- C14: `NewClient` returns an error exactly when parsing the host fails; it then returns a
nil client with the error of the parser and leaves the package state as it was: nothing is
cached, allocated or printed, so `getHttpClient` was not reached. -/
theorem NewClient_error_iff_parse_fails (parse : UrlParse) (s : ClientState)
    (host version : String) :
    ((NewClient parse s host version).1.2 ≠ none ↔ ∃ err, parse host = Except.error err) ∧
    (∀ err, parse host = Except.error err →
      NewClient parse s host version = ((none, some err), s)) := by
  refine ⟨?_, fun err hp => NewClient_parse_error parse s host version err hp⟩
  cases hp : parse host with
  | error err =>
    rw [NewClient_parse_error parse s host version err hp]
    simp
  | ok u =>
    rw [NewClient_parsed parse s host version u hp]
    simp

/-- C14 at a concrete input: the host `:foo` has no scheme. -/
theorem NewClient_error_iff_parse_fails_witness :
    exampleParse ":foo" = Except.error (GoError.other "parse :foo: missing protocol scheme") ∧
    NewClient exampleParse ClientState.init ":foo" "v1" =
      ((none, some (GoError.other "parse :foo: missing protocol scheme")), ClientState.init) :=
  ⟨by simp [exampleParse],
   (NewClient_error_iff_parse_fails exampleParse ClientState.init ":foo" "v1").2
     (GoError.other "parse :foo: missing protocol scheme") (by simp [exampleParse])⟩

/-- C15: with the configured base being a base directory followed by `/`,
`NewDriverClient(driverName, version)` is `NewClient` at the host string
`unix://<base-directory>/<driverName>.sock` and `NewClusterClient(version)` is `NewClient` at
`unix://<base-directory>/osd.sock`; the version passed on is `config.Version` for an empty
version and the given version otherwise. For every value of the constants the host strings
are `"unix://" + DriverAPIBase + driverName + ".sock"` and
`"unix://" + ClusterAPIBase + "osd.sock"`. -/
theorem derived_constructors (cfg : Config) (parse : UrlParse) (s : ClientState)
    (driverName version : String) :
    NewDriverClient cfg parse s driverName version =
      NewClient parse s ("unix://" ++ cfg.DriverAPIBase ++ driverName ++ ".sock")
        (if version = "" then cfg.Version else version) ∧
    NewClusterClient cfg parse s version =
      NewClient parse s ("unix://" ++ cfg.ClusterAPIBase ++ "osd.sock")
        (if version = "" then cfg.Version else version) ∧
    (∀ dir, cfg.DriverAPIBase = dir ++ "/" →
      NewDriverClient cfg parse s driverName version =
        NewClient parse s ("unix://" ++ dir ++ "/" ++ driverName ++ ".sock")
          (if version = "" then cfg.Version else version)) ∧
    (∀ dir, cfg.ClusterAPIBase = dir ++ "/" →
      NewClusterClient cfg parse s version =
        NewClient parse s ("unix://" ++ dir ++ "/" ++ "osd" ++ ".sock")
          (if version = "" then cfg.Version else version)) := by
  refine ⟨rfl, rfl, ?_, ?_⟩
  · intro dir hdir
    simp only [NewDriverClient, hdir, String.append_assoc]
  · intro dir hdir
    simp only [NewClusterClient, hdir, String.append_assoc]
    rfl

/-- C15 at a concrete input: with the driver base `/var/lib/osd/driver/` and an
empty version, the driver `pxd` is reached at `unix:///var/lib/osd/driver/pxd.sock` with
version `v1`. -/
theorem derived_constructors_witness :
    exampleConfig.DriverAPIBase = "/var/lib/osd/driver" ++ "/" ∧
    NewDriverClient exampleConfig exampleParse ClientState.init "pxd" "" =
      NewClient exampleParse ClientState.init "unix:///var/lib/osd/driver/pxd.sock" "v1" :=
  ⟨by decide,
   (derived_constructors exampleConfig exampleParse ClientState.init "pxd" "").2.2.1
     "/var/lib/osd/driver" (by decide)⟩

theorem getHttpClient_parsed_stdout (parse : UrlParse) (s : ClientState) (host : String)
    (u : URL) (hp : parse host = Except.ok u) :
    (getHttpClient parse s host).2.stdout = s.stdout := by
  cases hc : s.httpCache host with
  | some c1 => rw [getHttpClient_hit parse s host c1 hc]
  | none => rw [getHttpClient_miss_ok parse s host u hc hp]

/-- C20: whenever `NewClient(host, version)` returns success, the HTTP client of the returned
client is not nil and is the entry of the cache under the key `host` after the call, the
version field is the version argument, and nothing was printed: the parse-failure branch of
`getHttpClient` was not taken. -/
theorem NewClient_success_has_cached_client (parse : UrlParse) (s : ClientState)
    (host version : String) (h : (NewClient parse s host version).1.2 = none) :
    ∃ c hc, (NewClient parse s host version).1.1 = some c ∧
      c.httpClient = some hc ∧
      (NewClient parse s host version).2.httpCache host = some hc ∧
      c.version = version ∧
      (NewClient parse s host version).2.stdout = s.stdout := by
  cases hp : parse host with
  | error err =>
    rw [NewClient_parse_error parse s host version err hp] at h
    cases h
  | ok u =>
    obtain ⟨hc, hr⟩ := getHttpClient_parsed_some parse s host u hp
    rw [NewClient_parsed parse s host version u hp]
    exact ⟨_, hc, rfl, hr, getHttpClient_cached_after parse s host hc hr, rfl,
      getHttpClient_parsed_stdout parse s host u hp⟩

/-- C20 at a concrete input: a client for `http://localhost:9001`, version `v1`, on the empty
cache. -/
theorem NewClient_success_has_cached_client_witness :
    (NewClient exampleParse ClientState.init "http://localhost:9001" "v1").1.2 = none ∧
    ∃ c hc, (NewClient exampleParse ClientState.init "http://localhost:9001" "v1").1.1 =
        some c ∧
      c.httpClient = some hc ∧
      (NewClient exampleParse ClientState.init "http://localhost:9001" "v1").2.httpCache
        "http://localhost:9001" = some hc ∧
      c.version = "v1" :=
  ⟨by simp [NewClient, exampleParse],
   (NewClient_success_has_cached_client exampleParse ClientState.init "http://localhost:9001"
      "v1" (by simp [NewClient, exampleParse])).imp
      fun _ h => h.imp fun _ h2 => ⟨h2.1, h2.2.1, h2.2.2.1, h2.2.2.2.1⟩⟩

/-! ## Singleton holder: the error of `SetInstance` and the nil argument -/

theorem alreadySetError_text (quote : String → String) (held : KvdbObj) :
    GoError.text quote (alreadySetError held) =
      some ("Kvdb instance is already set to " ++ quote held.str) := by
  simp only [alreadySetError, GoError.text]
  congr 1
  apply String.ext
  simp [sprintfQ, String.toList]

/-- C16: when an instance `k0` is installed, the error that `SetInstance(k)` returns is built
from `k0.String()` whatever the argument `k` is, and its text is
`Kvdb instance is already set to ` followed by the quoted `k0.String()`. -/
theorem SetInstance_error_names_held (quote : String → String) (s : KvdbState)
    (k0 : KvdbObj) (k : Kvdb) (h : Instance s = some k0) :
    (SetInstance s k).2 =
      some (GoError.errorf "Kvdb instance is already set to %q" [k0.str]) ∧
    (SetInstance s k).2.bind (GoError.text quote) =
      some ("Kvdb instance is already set to " ++ quote k0.str) ∧
    ∀ k1 : Kvdb, (SetInstance s k1).2 = (SetInstance s k).2 := by
  have hs : s.instanceVar = some k0 := h
  refine ⟨?_, ?_, ?_⟩
  · rw [SetInstance_set s k k0 hs]
    rfl
  · rw [SetInstance_set s k k0 hs]
    exact alreadySetError_text quote k0
  · intro k1
    rw [SetInstance_set s k k0 hs, SetInstance_set s k1 k0 hs]

/-- C16 at a concrete input: `etcd` is installed and `consul` is offered; the error names
`etcd`. -/
theorem SetInstance_error_names_held_witness :
    Instance (SetInstance KvdbState.init (some { addr := 1, str := "etcd" })).1 =
      some { addr := 1, str := "etcd" } ∧
    (SetInstance (SetInstance KvdbState.init (some { addr := 1, str := "etcd" })).1
        (some { addr := 2, str := "consul" })).2.bind (GoError.text exampleQuote) =
      some ("Kvdb instance is already set to " ++ exampleQuote "etcd") :=
  ⟨rfl,
   (SetInstance_error_names_held exampleQuote
      (SetInstance KvdbState.init (some { addr := 1, str := "etcd" })).1
      { addr := 1, str := "etcd" } (some { addr := 2, str := "consul" }) rfl).2.1⟩

/-- C19: on an unset holder, `SetInstance(nil)` returns success and leaves the package state
as it was, so `Instance()` still returns nil, and a following `SetInstance(k)` returns success
for every `k` and installs it. -/
theorem SetInstance_nil_on_unset (s : KvdbState) (h : Instance s = none) :
    (SetInstance s none).2 = none ∧
    (SetInstance s none).1 = s ∧
    Instance (SetInstance s none).1 = none ∧
    ∀ k : Kvdb, (SetInstance (SetInstance s none).1 k).2 = none ∧
      Instance (SetInstance (SetInstance s none).1 k).1 = k := by
  have hs : s.instanceVar = none := h
  have hsame : (SetInstance s none).1 = s := by
    rw [SetInstance_unset s none hs]
    cases s with
    | mk inst ds =>
      simp only at hs
      rw [hs]
  refine ⟨by rw [SetInstance_unset s none hs], hsame, by rw [hsame]; exact h, ?_⟩
  intro k
  rw [hsame, SetInstance_unset s k hs]
  exact ⟨rfl, rfl⟩

/-- C19 at the initial state, followed by `SetInstance` of an instance. -/
theorem SetInstance_nil_on_unset_witness :
    Instance KvdbState.init = none ∧
    (SetInstance KvdbState.init none).2 = none ∧
    Instance (SetInstance KvdbState.init none).1 = none ∧
    (SetInstance (SetInstance KvdbState.init none).1
        (some { addr := 1, str := "etcd" })).2 = none :=
  ⟨rfl,
   (SetInstance_nil_on_unset KvdbState.init rfl).1,
   (SetInstance_nil_on_unset KvdbState.init rfl).2.2.1,
   ((SetInstance_nil_on_unset KvdbState.init rfl).2.2.2
      (some { addr := 1, str := "etcd" })).1⟩

/-! ## Client: the verb builders -/

/-- C17: each of `Get`, `Post`, `Put` and `Delete` calls `NewRequest` with the HTTP client,
the base URL and the version of the receiver and with the verb string `GET`, `POST`, `PUT`
and `DELETE` respectively, and leaves the receiver as it was. -/
theorem verb_builders (c : Client) :
    (c.Get.1 = NewRequest c.httpClient c.base "GET" c.version ∧
      c.Post.1 = NewRequest c.httpClient c.base "POST" c.version ∧
      c.Put.1 = NewRequest c.httpClient c.base "PUT" c.version ∧
      c.Delete.1 = NewRequest c.httpClient c.base "DELETE" c.version) ∧
    (c.Get.1.verb = "GET" ∧ c.Post.1.verb = "POST" ∧ c.Put.1.verb = "PUT" ∧
      c.Delete.1.verb = "DELETE") ∧
    (∀ r ∈ [c.Get.1, c.Post.1, c.Put.1, c.Delete.1],
      r.client = c.httpClient ∧ r.base = c.base ∧ r.version = c.version) ∧
    (c.Get.2 = c ∧ c.Post.2 = c ∧ c.Put.2 = c ∧ c.Delete.2 = c) := by
  refine ⟨⟨rfl, rfl, rfl, rfl⟩, ⟨rfl, rfl, rfl, rfl⟩, ?_, ⟨rfl, rfl, rfl, rfl⟩⟩
  intro r hr
  simp only [List.mem_cons, List.mem_singleton, List.not_mem_nil, or_false] at hr
  rcases hr with h | h | h | h <;> rw [h] <;> exact ⟨rfl, rfl, rfl⟩

end Openstorage
